import Mathlib

/-!
Verification development for the Eco-Logistics Algeria repository.

The repository couples a React frontend (present in the sources) with a
FastAPI backend hosting the NSGA-II optimizer and the rule-based CO2/cost
expert system (the backend modules `carbon_expert.py` and `optimizer.py`
are referenced by the README but their sources are not available here).
Frontend behaviour is embedded directly from the JavaScript sources;
the search engine and cost model are modelled from the specification.
All rational quantities are embedded as `ℚ`.
-/

set_option linter.unusedVariables false

namespace EcoLogistics

/-! ## Generic list sorting (structural insertion sort)

A stable deterministic sort used both by the frontend chart embedding
(JavaScript `Array.prototype.sort` is stable) and by the modelled engine
(Python `sorted` is stable).  Stability is obtained by sorting enumerated
elements with an index tie-break, which yields exactly the stable order. -/

def insertBy {α : Type} (le : α → α → Bool) (a : α) : List α → List α
  | [] => [a]
  | b :: l => if le a b then a :: b :: l else b :: insertBy le a l

def sortBy {α : Type} (le : α → α → Bool) : List α → List α
  | [] => []
  | a :: l => insertBy le a (sortBy le l)

/-! ## Data model (§3 of the specification) -/

inductive TransportMode
  | train
  | multimodal
  | truck_large
  | truck_medium
  | truck_small
deriving DecidableEq

inductive Zone
  | north
  | high_plateau
  | south
deriving DecidableEq

inductive CargoType
  | general
  | refrigerated
  | hazardous
  | bulk
  | fragile
deriving DecidableEq

/-- Modelled from the spec: `DeliveryRequest` (§3); the backend data model is
not among the available sources.  Locations are identifiers. -/
structure DeliveryRequest where
  origin : Nat
  destination : Nat
  cargo_tonnes : ℚ
  cargo_type : CargoType
  priority : Option Nat
deriving DecidableEq

/-- Modelled from the spec: per-request `Context` resolved by external lookups
before the search begins (§3). -/
structure Context where
  distance_km : ℚ
  origin_zone : Zone
  dest_zone : Zone
  rail_access_origin : Bool
  rail_access_dest : Bool
  capacity : TransportMode → ℚ

/-! ## DecisionCostModel (§4.1), modelled from the spec

The backend module `carbon_expert.py` is not among the available sources, so
the eight-rule estimator is modelled from the specification (and the constants
surfaced by the frontend UI: train base factor 0.020 kg CO2/t·km, +40% south
zone, ×2.5 total when the load factor is below 25%, +35% refrigerated cargo).
Constants not pinned down by the spec or UI are fixed arbitrary positive
rationals; the claims depend on the rule structure, not on these values. -/

def baseEmission : TransportMode → ℚ
  | .train => 1/50
  | .multimodal => 1/20
  | .truck_large => 9/100
  | .truck_medium => 3/20
  | .truck_small => 11/50

def baseCost : TransportMode → ℚ
  | .train => 8
  | .multimodal => 12
  | .truck_large => 15
  | .truck_medium => 20
  | .truck_small => 28

def zoneMultiplier : Zone → ℚ
  | .north => 1
  | .high_plateau => 23/20
  | .south => 7/5

def cargoMultiplier : CargoType → ℚ
  | .general => 1
  | .refrigerated => 27/20
  | .hazardous => 3/2
  | .bulk => 1
  | .fragile => 5/4

def crossingSurchargeEmission : ℚ := 1/20

def crossingSurchargeCost : ℚ := 3

def moderateLoadPenalty : ℚ := 5/4

def severeLoadPenalty : ℚ := 2

def longHaulThresholdKm : ℚ := 500

def longHaulRailBonus : ℚ := 4/5

def extremeDistanceThresholdKm : ℚ := 1000

def extremeSouthPenalty : ℚ := 13/10

def handlingOverheadDZD : ℚ := 5000

/-- Modelled from the spec: R4 load-factor penalty (§4.1).  A moderate
multiplicative penalty strictly below 0.5, a severe one strictly below 0.25;
the penalties compose (they multiply, they do not replace each other), and a
load factor exactly equal to a threshold is not penalized. -/
def loadFactorPenalty (lf : ℚ) : ℚ :=
  (if lf < 1/2 then moderateLoadPenalty else 1) *
  (if lf < 1/4 then severeLoadPenalty else 1)

/-- Modelled from the spec: R2, destination-zone multiplier. -/
def r2 (ctx : Context) (f : ℚ) : ℚ := f * zoneMultiplier ctx.dest_zone

/-- Modelled from the spec: R3, multi-zone-crossing surcharge, added when the
origin and destination zones differ. -/
def r3 (ctx : Context) (surcharge : ℚ) (f : ℚ) : ℚ :=
  if ctx.origin_zone ≠ ctx.dest_zone then f + surcharge else f

/-- Modelled from the spec: R4, load-factor penalty applied to the running
factor at `load_factor = cargo_tonnes / vehicle_capacity_tonnes`. -/
def r4 (req : DeliveryRequest) (ctx : Context) (mode : TransportMode) (f : ℚ) : ℚ :=
  f * loadFactorPenalty (req.cargo_tonnes / ctx.capacity mode)

/-- Modelled from the spec: R5, cargo-type multiplier. -/
def r5 (req : DeliveryRequest) (f : ℚ) : ℚ := f * cargoMultiplier req.cargo_type

/-- Modelled from the spec: road vehicles imply an empty return leg; the spec
does not fix the deadhead condition, so it is modelled as the truck modes. -/
def impliesDeadhead : TransportMode → Bool
  | .truck_large => true
  | .truck_medium => true
  | .truck_small => true
  | _ => false

/-- Modelled from the spec: R6, empty-return-leg addition (doubling the
one-way distance contribution). -/
def r6 (mode : TransportMode) (f : ℚ) : ℚ :=
  if impliesDeadhead mode then f + f else f

/-- Modelled from the spec: R7, long-distance rail bonus; above the long-haul
threshold on rail the running factor is reduced, never increased. -/
def r7 (ctx : Context) (mode : TransportMode) (f : ℚ) : ℚ :=
  if mode = TransportMode.train ∧ longHaulThresholdKm < ctx.distance_km then
    f * longHaulRailBonus
  else f

/-- Modelled from the spec: R8, extreme-south penalty when the destination
zone is south and the distance exceeds the extreme threshold. -/
def r8 (ctx : Context) (f : ℚ) : ℚ :=
  if ctx.dest_zone = Zone.south ∧ extremeDistanceThresholdKm < ctx.distance_km then
    f * extremeSouthPenalty
  else f

/-- Modelled from the spec: the emission factor obtained by sequentially
applying rules R1–R8, in this fixed order, to the base per-mode factor. -/
def co2Factor (mode : TransportMode) (req : DeliveryRequest) (ctx : Context) : ℚ :=
  r8 ctx (r7 ctx mode (r6 mode (r5 req (r4 req ctx mode
    (r3 ctx crossingSurchargeEmission (r2 ctx (baseEmission mode)))))))

/-- Modelled from the spec: the cost factor, using the analogous per-mode base
table and the same rule pipeline. -/
def costFactor (mode : TransportMode) (req : DeliveryRequest) (ctx : Context) : ℚ :=
  r8 ctx (r7 ctx mode (r6 mode (r5 req (r4 req ctx mode
    (r3 ctx crossingSurchargeCost (r2 ctx (baseCost mode)))))))

/-- Modelled from the spec: `DecisionCostModel.evaluate(decision, context) ->
{cost_dzd, co2_kg}` (§4.1): final value = factor × distance × tonnage, with a
fixed per-shipment handling overhead added to the cost only. -/
def evaluate (mode : TransportMode) (req : DeliveryRequest) (ctx : Context) : ℚ × ℚ :=
  (costFactor mode req ctx * ctx.distance_km * req.cargo_tonnes + handlingOverheadDZD,
   co2Factor mode req ctx * ctx.distance_km * req.cargo_tonnes)

/-! ## Recommendation selector (§4.5), modelled from the spec -/

def minListQ : List ℚ → ℚ
  | [] => 0
  | x :: xs => xs.foldl min x

def maxListQ : List ℚ → ℚ
  | [] => 0
  | x :: xs => xs.foldl max x

/-- Modelled from the spec: min/max normalization of one objective value; when
max equals min every member's normalized value is 0, so the division is only
ever performed with a non-zero denominator. -/
def normalizeBy (mn mx v : ℚ) : ℚ :=
  if mx = mn then 0 else (v - mn) / (mx - mn)

/-- Modelled from the spec: `score = α·norm_cost + (1-α)·norm_co2`. -/
def scalarScore (alpha mnC mxC mnO mxO : ℚ) (f : ℚ × ℚ) : ℚ :=
  alpha * normalizeBy mnC mxC f.1 + (1 - alpha) * normalizeBy mnO mxO f.2

/-- Fold selecting the minimum-score member; a candidate replaces the current
best only when strictly better (smaller score, or equal score and smaller raw
cost), so the lowest population index wins all remaining ties. -/
def recommendFold (sc : ℚ × ℚ → ℚ) (best : Nat × (ℚ × ℚ)) (idx : Nat) :
    List (ℚ × ℚ) → Nat
  | [] => best.1
  | f :: rest =>
    let repl := sc f < sc best.2 ∨ (sc f = sc best.2 ∧ f.1 < best.2.1)
    recommendFold sc (if repl then (idx, f) else best) (idx + 1) rest

/-- Modelled from the spec: the recommendation selector (§4.5) over the list
of (cost, co2) pairs of the final front, returning the index of the selected
member. -/
def recommendIdx (alpha : ℚ) (fits : List (ℚ × ℚ)) : Option Nat :=
  match fits with
  | [] => none
  | f0 :: rest =>
    let costs := (f0 :: rest).map Prod.fst
    let co2s := (f0 :: rest).map Prod.snd
    let sc := scalarScore alpha (minListQ costs) (maxListQ costs)
      (minListQ co2s) (maxListQ co2s)
    some (recommendFold sc (0, f0) 1 rest)

/-! ## Representation and variation operators (§4.2), modelled from the spec -/

/-- Modelled from the spec: an explicitly owned, seedable pseudo-random source
(a 32-bit linear congruential generator) threaded through every stochastic
call; no process-wide random state. -/
structure RNG where
  state : Nat
deriving DecidableEq

def RNG.next (r : RNG) : Nat × RNG :=
  let s := (1664525 * r.state + 1013904223) % 4294967296
  (s, ⟨s⟩)

def RNG.randNat (r : RNG) (n : Nat) : Nat × RNG :=
  let p := r.next
  (p.1 % n, p.2)

/-- Draw a boolean that is true with probability `p` (a rational in [0,1]). -/
def RNG.chance (r : RNG) (p : ℚ) : Bool × RNG :=
  let q := r.randNat 1000000
  (decide ((q.1 : ℚ) < p * 1000000), q.2)

/-- Modelled from the spec: the feasible mode set for a request's context; the
truck modes are always feasible, rail-based modes require rail access at both
endpoints. -/
def feasibleModes (ctx : Context) : List TransportMode :=
  [TransportMode.truck_small, TransportMode.truck_medium, TransportMode.truck_large] ++
  (if ctx.rail_access_origin && ctx.rail_access_dest then
    [TransportMode.train, TransportMode.multimodal]
  else [])

abbrev RC := DeliveryRequest × Context

/-- Modelled from the spec: an `Individual` is an ordered sequence of per-
request decisions plus a cached fitness pair `(total_cost_dzd, total_co2_kg)`. -/
structure Individual where
  genes : List TransportMode
  fitness : ℚ × ℚ
deriving DecidableEq

/-- Sum of the per-request `DecisionCostModel` outputs over a gene sequence. -/
def sumFit (rcs : List RC) (genes : List TransportMode) : ℚ × ℚ :=
  match rcs, genes with
  | rc :: rs, g :: gs =>
    let e := evaluate g rc.1 rc.2
    let s := sumFit rs gs
    (e.1 + s.1, e.2 + s.2)
  | _, _ => (0, 0)

/-- Construct an individual with its fitness evaluated (the cache is filled at
construction, so a cached fitness always equals the sum of the per-request
model outputs). -/
def evalInd (rcs : List RC) (genes : List TransportMode) : Individual :=
  ⟨genes, sumFit rcs genes⟩

/-- Fallback individual for out-of-range indexed access; its cached fitness
`(0,0)` equals `sumFit rcs []` for every context list. -/
def defaultInd : Individual := ⟨[], (0, 0)⟩

def sampleUniform (l : List TransportMode) (r : RNG) : TransportMode × RNG :=
  let p := r.randNat l.length
  (l.getD p.1 TransportMode.truck_small, p.2)

/-- Modelled from the spec: initialization samples, for each request,
uniformly among its feasible modes. -/
def initGenes (rcs : List RC) (r : RNG) : List TransportMode × RNG :=
  match rcs with
  | [] => ([], r)
  | rc :: rest =>
    let p := sampleUniform (feasibleModes rc.2) r
    let q := initGenes rest p.2
    (p.1 :: q.1, q.2)

def initPop (rcs : List RC) (n : Nat) (r : RNG) : List Individual × RNG :=
  match n with
  | 0 => ([], r)
  | m + 1 =>
    let p := initGenes rcs r
    let q := initPop rcs m p.2
    (evalInd rcs p.1 :: q.1, q.2)

inductive CrossoverStrategy
  | uniformX
  | onePoint
deriving DecidableEq

/-- Modelled from the spec: uniform crossover, exchanging decisions gene by
gene according to a per-gene coin flip. -/
def uniformCrossGenes (g1 g2 : List TransportMode) (r : RNG) :
    (List TransportMode × List TransportMode) × RNG :=
  match g1, g2 with
  | a :: as, b :: bs =>
    let c := RNG.chance r (1/2)
    let rest := uniformCrossGenes as bs c.2
    if c.1 then ((b :: rest.1.1, a :: rest.1.2), rest.2)
    else ((a :: rest.1.1, b :: rest.1.2), rest.2)
  | as, bs => ((as, bs), r)

/-- Modelled from the spec: single-cut-point crossover. -/
def onePointCrossGenes (g1 g2 : List TransportMode) (r : RNG) :
    (List TransportMode × List TransportMode) × RNG :=
  let p := r.randNat (g1.length + 1)
  ((g1.take p.1 ++ g2.drop p.1, g2.take p.1 ++ g1.drop p.1), p.2)

/-- Modelled from the spec: per-gene mutation with probability
`mutation_rate`, resampling uniformly among the feasible alternatives
(excluding the current value when an alternative exists). -/
def mutateGenes (rcs : List RC) (rate : ℚ) (genes : List TransportMode) (r : RNG) :
    List TransportMode × RNG :=
  match rcs, genes with
  | rc :: rs, g :: gs =>
    let c := RNG.chance r rate
    let pick : TransportMode × RNG :=
      if c.1 then
        let alts := (feasibleModes rc.2).filter (fun m => decide (m ≠ g))
        if alts.isEmpty then (g, c.2) else sampleUniform alts c.2
      else (g, c.2)
    let rest := mutateGenes rs rate gs pick.2
    (pick.1 :: rest.1, rest.2)
  | _, gs => (gs, r)

/-! ## Non-dominated sorting and crowding distance (§4.3), modelled from the
spec -/

/-- Modelled from the spec: `A` dominates `B` iff `cost(A) ≤ cost(B)` and
`co2(A) ≤ co2(B)`, with at least one strict inequality. -/
def Dominates (a b : ℚ × ℚ) : Prop :=
  a.1 ≤ b.1 ∧ a.2 ≤ b.2 ∧ (a.1 < b.1 ∨ a.2 < b.2)

instance (a b : ℚ × ℚ) : Decidable (Dominates a b) := by
  unfold Dominates; infer_instance

def undominatedIn {α : Type} (fit : α → ℚ × ℚ) (P : List α) (x : α) : Bool :=
  P.all fun y => ! decide (Dominates (fit y) (fit x))

/-- The rank-0 subset: members dominated by no member of the population. -/
def firstFrontBy {α : Type} (fit : α → ℚ × ℚ) (P : List α) : List α :=
  P.filter (undominatedIn fit P)

def firstFront (P : List Individual) : List Individual :=
  firstFrontBy (fun i => i.fitness) P

/-- Modelled from the spec: partition into fronts F0, F1, ... by repeatedly
peeling off the non-dominated subset.  The fuel argument (instantiated with
the population size) bounds the recursion; each peel removes the non-empty
rank-0 subset, so the fuel is never exhausted on a non-empty population. -/
def paretoFrontsBy {α : Type} (fit : α → ℚ × ℚ) : Nat → List α → List (List α)
  | 0, _ => []
  | _, [] => []
  | fuel + 1, P =>
    firstFrontBy fit P ::
      paretoFrontsBy fit fuel (P.filter fun x => ! undominatedIn fit P x)

/-- Crowding-contribution list for one objective: front members are sorted by
the objective (stably, via the enumeration index); the boundary members
receive infinite distance and each interior member the gap between its two
neighbours divided by the objective's range across the front. -/
def innerGaps (f : Individual → ℚ) (range : ℚ) (prev : Nat × Individual) :
    List (Nat × Individual) → List (Nat × WithTop ℚ)
  | [] => []
  | [last] => [(last.1, ⊤)]
  | cur :: next :: rest =>
    (cur.1, (((f next.2 - f prev.2) / range : ℚ) : WithTop ℚ)) ::
      innerGaps f range cur (next :: rest)

def sortByObj (f : Individual → ℚ) (E : List (Nat × Individual)) :
    List (Nat × Individual) :=
  sortBy (fun a b => decide (f a.2 < f b.2 ∨ (f a.2 = f b.2 ∧ a.1 ≤ b.1))) E

def objContribs (f : Individual → ℚ) (E : List (Nat × Individual)) :
    List (Nat × WithTop ℚ) :=
  let range := maxListQ (E.map fun e => f e.2) - minListQ (E.map fun e => f e.2)
  match sortByObj f E with
  | [] => []
  | [a] => [(a.1, ⊤)]
  | a :: b :: rest => (a.1, ⊤) :: innerGaps f range a (b :: rest)

def assocD (l : List (Nat × WithTop ℚ)) (i : Nat) : WithTop ℚ :=
  match l.lookup i with
  | some v => v
  | none => 0

/-- Modelled from the spec: total crowding distance of the member carrying
enumeration index `i` within the front `E` — the sum of its per-objective
contributions. -/
def crowdingAt (E : List (Nat × Individual)) (i : Nat) : WithTop ℚ :=
  assocD (objContribs (fun x => x.fitness.1) E) i +
    assocD (objContribs (fun x => x.fitness.2) E) i

/-! ## Generational loop (§4.4), modelled from the spec -/

/-- Modelled from the spec: search parameters (§6).  `population_size` and
`generations` are integers so that out-of-range values (0, -1) can be
expressed and rejected. -/
structure Params where
  alpha : ℚ
  population_size : Int
  generations : Int
  crossover_rate : ℚ
  mutation_rate : ℚ
  seed : Nat
  strategy : CrossoverStrategy
deriving DecidableEq

def rankAssignAux : Nat → List (List (Nat × Individual)) → List (Nat × Nat)
  | _, [] => []
  | r, F :: rest => F.map (fun e => (e.1, r)) ++ rankAssignAux (r + 1) rest

/-- The fronts of the enumerated population, used for selection. -/
def selectionData (P : List Individual) : List (List (Nat × Individual)) :=
  paretoFrontsBy (fun x => x.2.fitness) P.length P.enum

def rankOf (fronts : List (List (Nat × Individual))) (i : Nat) : Nat :=
  match (rankAssignAux 0 fronts).lookup i with
  | some r => r
  | none => fronts.length

def crowdAssign (fronts : List (List (Nat × Individual))) : List (Nat × WithTop ℚ) :=
  (fronts.map (fun F => F.map (fun e => (e.1, crowdingAt F e.1)))).flatten

def crowdOf (fronts : List (List (Nat × Individual))) (i : Nat) : WithTop ℚ :=
  assocD (crowdAssign fronts) i

/-- Modelled from the spec: tournament comparison — lower front rank wins,
ties broken by higher crowding distance, remaining ties by lower population
index (deterministic). -/
def keyBetter (fronts : List (List (Nat × Individual))) (i j : Nat) : Bool :=
  decide (rankOf fronts i < rankOf fronts j ∨
    (rankOf fronts i = rankOf fronts j ∧ crowdOf fronts j < crowdOf fronts i) ∨
    (rankOf fronts i = rankOf fronts j ∧ crowdOf fronts i = crowdOf fronts j ∧ i ≤ j))

/-- Modelled from the spec: binary tournament between two randomly drawn
population indices. -/
def tourney (P : List Individual) (fronts : List (List (Nat × Individual)))
    (r : RNG) : Individual × RNG :=
  let p1 := r.randNat P.length
  let p2 := p1.2.randNat P.length
  let w := if keyBetter fronts p1.1 p2.1 then p1.1 else p2.1
  (P.getD w defaultInd, p2.2)

/-- Modelled from the spec: the gene sequences of one offspring pair — two
parents chosen by binary tournament, crossover applied with probability
`crossover_rate`, then mutation. -/
def offspringGenes (rcs : List RC) (strat : CrossoverStrategy) (cxRate mutRate : ℚ)
    (P : List Individual) (fronts : List (List (Nat × Individual))) (r : RNG) :
    (List TransportMode × List TransportMode) × RNG :=
  let s1 := tourney P fronts r
  let s2 := tourney P fronts s1.2
  let cx := RNG.chance s2.2 cxRate
  let crossed :=
    if cx.1 then
      match strat with
      | .uniformX => uniformCrossGenes s1.1.genes s2.1.genes cx.2
      | .onePoint => onePointCrossGenes s1.1.genes s2.1.genes cx.2
    else ((s1.1.genes, s2.1.genes), cx.2)
  let m1 := mutateGenes rcs mutRate crossed.1.1 crossed.2
  let m2 := mutateGenes rcs mutRate crossed.1.2 m1.2
  ((m1.1, m2.1), m2.2)

/-- Both children of an offspring pair, re-evaluated at construction. -/
def offspringPair (rcs : List RC) (strat : CrossoverStrategy) (cxRate mutRate : ℚ)
    (P : List Individual) (fronts : List (List (Nat × Individual))) (r : RNG) :
    (Individual × Individual) × RNG :=
  let g := offspringGenes rcs strat cxRate mutRate P fronts r
  ((evalInd rcs g.1.1, evalInd rcs g.1.2), g.2)

/-- Modelled from the spec: produce `k` offspring pairs. -/
def makeOffspring (rcs : List RC) (strat : CrossoverStrategy) (cxRate mutRate : ℚ)
    (P : List Individual) (fronts : List (List (Nat × Individual))) :
    Nat → RNG → List Individual × RNG
  | 0, r => ([], r)
  | k + 1, r =>
    let pr := offspringPair rcs strat cxRate mutRate P fronts r
    let rest := makeOffspring rcs strat cxRate mutRate P fronts k pr.2
    (pr.1.1 :: pr.1.2 :: rest.1, rest.2)

/-- Stable descending sort of a front by crowding distance (ties broken by the
enumeration index, keeping the order deterministic). -/
def sortByCrowdDesc (F : List Individual) : List Individual :=
  let E := F.enum
  (sortBy (fun a b => decide (crowdingAt E b.1 < crowdingAt E a.1 ∨
    (crowdingAt E a.1 = crowdingAt E b.1 ∧ a.1 ≤ b.1))) E).map (fun e => e.2)

/-- Modelled from the spec: fill the next generation front by front until a
whole front would exceed the budget, then fill the remainder from that front
in order of descending crowding distance. -/
def fillNext (n : Nat) : List (List Individual) → List Individual
  | [] => []
  | F :: rest =>
    if F.length ≤ n then F ++ fillNext (n - F.length) rest
    else (sortByCrowdDesc F).take n

/-- Modelled from the spec: a logbook entry records the generation index and
the minimum cost and co2 across the population.  The index field is named
`gen`: the frontend consumer (`EvolutionChart`) reads `record.gen`, which
pins the field name used by the backend's logbook. -/
structure LogEntry where
  gen : Nat
  min_cost : ℚ
  min_co2 : ℚ
deriving DecidableEq

def minCost (P : List Individual) : ℚ := minListQ (P.map fun i => i.fitness.1)

def minCo2 (P : List Individual) : ℚ := minListQ (P.map fun i => i.fitness.2)

def mkLogEntry (g : Nat) (P : List Individual) : LogEntry :=
  ⟨g, minCost P, minCo2 P⟩

structure EngineState where
  pop : List Individual
  rng : RNG
  logbook : List LogEntry

/-- The offspring population of one generation (with its advanced random
state): `population_size` children bred from the current population. -/
def offspringOf (rcs : List RC) (p : Params) (st : EngineState) :
    List Individual × RNG :=
  makeOffspring rcs p.strategy p.crossover_rate p.mutation_rate st.pop
    (selectionData st.pop) ((st.pop.length + 1) / 2) st.rng

/-- The merged parent + offspring population of one generation. -/
def mergedOf (rcs : List RC) (p : Params) (st : EngineState) : List Individual :=
  st.pop ++ (offspringOf rcs p st).1.take st.pop.length

/-- The truncated next-generation population: the merged population is
non-dominated sorted and filled front by front up to `population_size`. -/
def newPopOf (rcs : List RC) (p : Params) (st : EngineState) : List Individual :=
  fillNext p.population_size.toNat
    (paretoFrontsBy (fun x : Individual => x.fitness) (mergedOf rcs p st).length
      (mergedOf rcs p st))

/-- Modelled from the spec: one generation (§4.4): select parents by binary
tournament, produce an equally sized offspring population by crossover and
mutation, evaluate, merge, non-dominated sort, truncate, and record a logbook
entry. -/
def stepGen (rcs : List RC) (p : Params) (g : Nat) (st : EngineState) : EngineState :=
  ⟨newPopOf rcs p st, (offspringOf rcs p st).2,
    mkLogEntry (g + 1) (newPopOf rcs p st) :: st.logbook⟩

def initState (rcs : List RC) (p : Params) : EngineState :=
  let ip := initPop rcs p.population_size.toNat ⟨p.seed⟩
  ⟨ip.1, ip.2, []⟩

/-- The engine state after `g` completed generations. -/
def runState (rcs : List RC) (p : Params) : Nat → EngineState
  | 0 => initState rcs p
  | g + 1 => stepGen rcs p g (runState rcs p g)

/-! ## External interface and error handling (§6, §7), modelled from the spec -/

structure Decision where
  request_index : Nat
  mode : TransportMode
deriving DecidableEq

structure Solution where
  total_cost_dzd : ℚ
  total_co2_kg : ℚ
  decisions : List Decision
deriving DecidableEq

structure Statistics where
  generations : Nat
  population_size : Nat
  final_min_cost : ℚ
  final_min_co2 : ℚ
deriving DecidableEq

structure Output where
  pareto_front : List Solution
  recommended_solution : Option Solution
  logbook : List LogEntry
  statistics : Statistics
deriving DecidableEq

/-- Modelled from the spec: the error taxonomy (§7). -/
inductive EngineError
  | invalidInput
  | configuration
  | externalLookup (request_index : Nat)
deriving DecidableEq

def toSolution (ind : Individual) : Solution :=
  ⟨ind.fitness.1, ind.fitness.2, ind.genes.enum.map (fun e => ⟨e.1, e.2⟩)⟩

/-- Modelled from the spec: the completed-run output — the rank-0 front of the
final population, the scalarized recommendation, the logbook (in generation
order) and summary statistics. -/
def mkOutput (rcs : List RC) (p : Params) : Output :=
  let final := runState rcs p p.generations.toNat
  let front := firstFront final.pop
  let rIdx := recommendIdx p.alpha (front.map fun i => i.fitness)
  { pareto_front := front.map toSolution
    recommended_solution := rIdx.map fun i => toSolution (front.getD i defaultInd)
    logbook := final.logbook.reverse
    statistics := ⟨p.generations.toNat, p.population_size.toNat,
      minCost final.pop, minCo2 final.pop⟩ }

/-- Modelled from the spec: parameter validation (§4.4) — positive population
size, non-negative generation count, rates and weight within [0,1]. -/
def validConfigB (p : Params) : Bool :=
  decide (0 < p.population_size) && decide (0 ≤ p.generations) &&
  decide (0 ≤ p.crossover_rate) && decide (p.crossover_rate ≤ 1) &&
  decide (0 ≤ p.mutation_rate) && decide (p.mutation_rate ≤ 1) &&
  decide (0 ≤ p.alpha) && decide (p.alpha ≤ 1)

/-- Modelled from the spec: resolve the per-request context lookups before the
loop starts; an unresolvable lookup aborts the run naming the offending
request index. -/
def resolveContextsFrom (lookup : Nat → Nat → Option Context) (i : Nat) :
    List DeliveryRequest → Except Nat (List RC)
  | [] => .ok []
  | q :: rest =>
    match lookup q.origin q.destination with
    | none => .error i
    | some c =>
      match resolveContextsFrom lookup (i + 1) rest with
      | .error j => .error j
      | .ok rs => .ok ((q, c) :: rs)

/-- Modelled from the spec: the full engine (§6, §7).  Configuration is
validated first, then the input, then the external lookups; any failure
aborts before a generation runs and produces an error carrying no output. -/
def run (reqs : List DeliveryRequest) (lookup : Nat → Nat → Option Context)
    (p : Params) : Except EngineError Output :=
  if validConfigB p then
    if reqs.isEmpty then .error .invalidInput
    else if reqs.any (fun q => decide (q.cargo_tonnes ≤ 0)) then .error .invalidInput
    else
      match resolveContextsFrom lookup 0 reqs with
      | .error i => .error (.externalLookup i)
      | .ok rcs =>
        if rcs.any (fun rc => (feasibleModes rc.2).isEmpty) then .error .invalidInput
        else .ok (mkOutput rcs p)
  else .error .configuration

/-! ## Frontend embeddings

These definitions are translated directly from the JavaScript sources of the
frontend (`App.jsx`, `contexts/ThemeContext.jsx`, the chart component file and
the export-utilities file). -/

/-- The JSON body of `api.generateAndOptimize` (ThemeContext.jsx): the POST to
`/optimize/sample` carries exactly the fields `n_requests` and `seed`. -/
structure SampleOptimizeBody where
  n_requests : Nat
  seed : Nat
deriving DecidableEq

def generateAndOptimizeBody (nRequests seed : Nat) : SampleOptimizeBody :=
  ⟨nRequests, seed⟩

/-- `handleOptimize` (App.jsx): the optimization click handler calls
`api.generateAndOptimize(nRequests, 42)`.  The `alpha` argument embeds the
App component's `alpha` state (set by the `AlphaSlider`), which is in scope
in the component but does not appear in the call. -/
def handleOptimizeBody (nRequests : Nat) (alpha : ℚ) : SampleOptimizeBody :=
  generateAndOptimizeBody nRequests 42

/-- The JSON body of `api.optimize` (ThemeContext.jsx): the POST to
`/optimize` does carry an `alpha` field — but `handleOptimize` never calls
this function. -/
structure OptimizeBody where
  n_requests_listed : Nat
  alpha : ℚ
  population_size : Nat
  generations : Nat
deriving DecidableEq

def apiOptimizeBody (nRequests : Nat) (alpha : ℚ) (popSize generations : Nat) :
    OptimizeBody :=
  ⟨nRequests, alpha, popSize, generations⟩

/-- A JSON record as the charts receive it: a partial map from field names to
numbers (an absent field reads as `none`). -/
def LogRecord : Type := String → Option ℚ

/-- The projection of one logbook record performed by `EvolutionChart`
(chart component file): `generation: record.gen`,
`cost: record.min_cost / 1000000`, `co2: record.min_co2 / 1000`. -/
structure EvolutionPoint where
  generation : Option ℚ
  cost : Option ℚ
  co2 : Option ℚ
deriving DecidableEq

def evolutionPoint (r : LogRecord) : EvolutionPoint :=
  ⟨r "gen", (r "min_cost").map (fun v => v / 1000000),
    (r "min_co2").map (fun v => v / 1000)⟩

/-- The JSON serialization of a modelled logbook entry, as the frontend
receives it: the generation index is exposed under the field name `gen`. -/
def logRecordOf (e : LogEntry) : LogRecord := fun k =>
  if k = "gen" then some (e.gen : ℚ)
  else if k = "min_cost" then some e.min_cost
  else if k = "min_co2" then some e.min_co2
  else none

/-- A record shaped as the claim describes logbook entries: the generation
index stored under the field name `generation`. -/
def specStyleRecord : LogRecord := fun k =>
  if k = "generation" then some 7
  else if k = "min_cost" then some 100
  else if k = "min_co2" then some 50
  else none

/-- One row of the `Front Pareto` sheet built by `exportToExcel` (export
utilities file): solution number `idx + 1`, raw cost and co2, and
`Recommandée: idx === 0 ? Oui : Non`. -/
structure ParetoRow where
  solution_no : Nat
  cost : ℚ
  co2 : ℚ
  recommended : Bool
deriving DecidableEq

def paretoSheetRowsFrom (idx : Nat) : List Solution → List ParetoRow
  | [] => []
  | s :: rest =>
    ⟨idx + 1, s.total_cost_dzd, s.total_co2_kg, decide (idx = 0)⟩ ::
      paretoSheetRowsFrom (idx + 1) rest

/-- `exportToExcel`'s `Front Pareto` sheet: a row per front member, in front
order.  The function receives only the front — neither the trade-off weight
nor the backend's `recommended_solution` flows into it. -/
def paretoSheetRows (front : List Solution) : List ParetoRow :=
  paretoSheetRowsFrom 0 front

/-- One comparison entry as `TransportComparisonChart` receives it (a value of
the `comparison` object). -/
structure ModeEntry where
  error : Bool
  total_co2_kg : ℚ
  n_vehicles : Option Nat
deriving DecidableEq

def replaceFirstUnderscoreAux : List Char → List Char
  | [] => []
  | c :: cs => if c = '_' then ' ' :: cs else c :: replaceFirstUnderscoreAux cs

/-- JavaScript `mode.replace(underscore, space)` replaces only the first
occurrence. -/
def replaceFirstUnderscore (s : String) : String :=
  ⟨replaceFirstUnderscoreAux s.data⟩

/-- One bar datum of `TransportComparisonChart` (chart component file). -/
structure BarDatum where
  modeLabel : String
  rawMode : String
  co2 : ℚ
  vehicles : Nat
  isPredicted : Bool
deriving DecidableEq

def mkBar (predictedMode : Option String) (m : String) (v : ModeEntry) : BarDatum :=
  ⟨replaceFirstUnderscore m, m, v.total_co2_kg,
    (match v.n_vehicles with
     | some k => if k = 0 then 1 else k
     | none => 1),
    decide (predictedMode = some m)⟩

/-- `TransportComparisonChart`'s `chartData`: the comparison entries without
an `error` field, mapped to bar data and sorted ascending by `co2`
(JavaScript's stable sort, reproduced by sorting the enumerated list with an
index tie-break). -/
def transportChartData (predictedMode : Option String)
    (comparison : List (String × ModeEntry)) : List BarDatum :=
  let bars := (comparison.filter (fun e => ! e.2.error)).map
    (fun e => mkBar predictedMode e.1 e.2)
  (sortBy (fun a b => decide (a.2.co2 < b.2.co2 ∨ (a.2.co2 = b.2.co2 ∧ a.1 ≤ b.1)))
    bars.enum).map (fun e => e.2)

/-! ## Concrete fixtures used by the witnesses -/

def ctx0 : Context :=
  ⟨100, Zone.north, Zone.north, true, true, fun _ => 25⟩

def req0 : DeliveryRequest := ⟨0, 1, 10, CargoType.general, none⟩

def reqs0 : List DeliveryRequest := [req0]

def lookup0 : Nat → Nat → Option Context := fun _ _ => some ctx0

def rcs0 : List RC := [(req0, ctx0)]

def params0 : Params := ⟨1/2, 2, 0, 9/10, 1/10, 42, CrossoverStrategy.uniformX⟩

def params1 : Params := ⟨1/2, 2, 1, 9/10, 1/10, 42, CrossoverStrategy.uniformX⟩

def emptyOutput : Output := ⟨[], none, [], ⟨0, 0, 0, 0⟩⟩

def out0 : Output :=
  match run reqs0 lookup0 params0 with
  | .ok o => o
  | .error _ => emptyOutput

def out1 : Output :=
  match run reqs0 lookup0 params1 with
  | .ok o => o
  | .error _ => emptyOutput

def sol0 : Solution := out0.pareto_front.getD 0 ⟨0, 0, []⟩

def ent0 : LogEntry := out1.logbook.getD 0 ⟨0, 0, 0⟩

/-- Fixture with `population_size = 0` (a configuration error). -/
def paramsPop0 : Params := ⟨1/2, 0, 3, 9/10, 1/10, 42, CrossoverStrategy.uniformX⟩

/-- Fixture with `generations = -1` (a configuration error). -/
def paramsGenNeg : Params := ⟨1/2, 2, -1, 9/10, 1/10, 42, CrossoverStrategy.uniformX⟩

/-- Fitness-cache well-formedness: the cached pair equals the sum of the
per-request model outputs over the genes. -/
def WFInd (rcs : List RC) (ind : Individual) : Prop :=
  ind.fitness = sumFit rcs ind.genes

deriving instance DecidableEq for Except

/-! ## Theorems -/

section MainTheorems

attribute [local semireducible] Rat.mul Rat.add Rat.sub Rat.inv

/-! ### Sorting helper lemmas -/

theorem mem_insertBy {α : Type} (le : α → α → Bool) (a x : α) (l : List α) :
    x ∈ insertBy le a l ↔ x = a ∨ x ∈ l := by
  induction l with
  | nil => simp [insertBy]
  | cons b t ih =>
    simp only [insertBy]
    split
    · simp [List.mem_cons]
    · simp only [List.mem_cons, ih]
      tauto

theorem mem_sortBy {α : Type} (le : α → α → Bool) (x : α) (l : List α) :
    x ∈ sortBy le l ↔ x ∈ l := by
  induction l with
  | nil => simp [sortBy]
  | cons a t ih => simp [sortBy, mem_insertBy, ih]

theorem pairwise_insertBy {α : Type} {le : α → α → Bool}
    (htot : ∀ a b, le a b = false → le b a = true)
    (htrans : ∀ a b c, le a b = true → le b c = true → le a c = true)
    (a : α) (l : List α) (hl : l.Pairwise fun x y => le x y = true) :
    (insertBy le a l).Pairwise fun x y => le x y = true := by
  induction l with
  | nil => simp [insertBy]
  | cons b t ih =>
    rcases List.pairwise_cons.mp hl with ⟨hb, ht⟩
    simp only [insertBy]
    split
    · next hab =>
      refine List.pairwise_cons.mpr ⟨?_, hl⟩
      intro y hy
      rcases List.mem_cons.mp hy with rfl | hy
      · exact hab
      · exact htrans a b y hab (hb y hy)
    · next hab =>
      have hba : le b a = true := htot a b (Bool.not_eq_true _ ▸ hab)
      refine List.pairwise_cons.mpr ⟨?_, ih ht⟩
      intro y hy
      rcases (mem_insertBy le a y t).mp hy with rfl | hy
      · exact hba
      · exact hb y hy

theorem pairwise_sortBy {α : Type} {le : α → α → Bool}
    (htot : ∀ a b, le a b = false → le b a = true)
    (htrans : ∀ a b c, le a b = true → le b c = true → le a c = true)
    (l : List α) : (sortBy le l).Pairwise fun x y => le x y = true := by
  induction l with
  | nil => simp [sortBy]
  | cons a t ih => exact pairwise_insertBy htot htrans a _ ih

/-- Membership through an enumerate-sort-project pipeline. -/
theorem mem_sortBy_enum_snd {α : Type} (le : Nat × α → Nat × α → Bool)
    (x : α) (l : List α) :
    (x ∈ (sortBy le l.enum).map fun e => e.2) ↔ x ∈ l := by
  constructor
  · intro hx
    rcases List.mem_map.mp hx with ⟨p, hp, rfl⟩
    have hp2 := (mem_sortBy le p l.enum).mp hp
    have : p.2 ∈ l.enum.map Prod.snd := List.mem_map.mpr ⟨p, hp2, rfl⟩
    simpa [List.enum_map_snd] using this
  · intro hx
    have : x ∈ l.enum.map Prod.snd := by simpa [List.enum_map_snd] using hx
    rcases List.mem_map.mp this with ⟨p, hp, rfl⟩
    exact List.mem_map.mpr ⟨p, (mem_sortBy le p l.enum).mpr hp, rfl⟩

/-! ### C1 -/

/-- C1: the claim asserts that the user-chosen trade-off weight α is passed to
and used by the recommendation selection.  In the code, `handleOptimize`
(App.jsx) calls `api.generateAndOptimize(nRequests, 42)`, whose POST body
(`/optimize/sample`) carries only `n_requests` and `seed`: the App's `alpha`
state never reaches the backend, so the request body is identical for every
slider position, even though `api.optimize` (which is never called from
`handleOptimize`) would accept an `alpha` field. -/
theorem claim_alpha_not_passed_to_optimize :
    (∀ (n : Nat) (a b : ℚ), handleOptimizeBody n a = handleOptimizeBody n b) ∧
    handleOptimizeBody 20 0 = { n_requests := 20, seed := 42 } ∧
    handleOptimizeBody 20 1 = { n_requests := 20, seed := 42 } ∧
    (∀ (n : Nat) (a : ℚ) (ps g : Nat), (apiOptimizeBody n a ps g).alpha = a) :=
  ⟨fun _ _ _ => rfl, rfl, rfl, fun _ _ _ _ => rfl⟩

/-! ### C4 -/

/-- C4: rule R4 applies no penalty at a load factor exactly equal to a
threshold (0.5 and 0.25 unpenalized on the boundary, 0.499999 penalized), a
moderate multiplicative penalty strictly below 0.5, and, strictly below 0.25,
additionally a severe multiplicative penalty that composes with (multiplies)
the moderate one; `r4` applies this penalty to the running factor at
`load_factor = cargo_tonnes / vehicle_capacity_tonnes`. -/
theorem claim_r4_load_factor_boundaries :
    (∀ (req : DeliveryRequest) (ctx : Context) (mode : TransportMode) (f : ℚ),
      r4 req ctx mode f = f * loadFactorPenalty (req.cargo_tonnes / ctx.capacity mode)) ∧
    loadFactorPenalty (1/2) = 1 ∧
    loadFactorPenalty (499999/1000000) = moderateLoadPenalty ∧
    moderateLoadPenalty ≠ 1 ∧
    loadFactorPenalty (1/4) = moderateLoadPenalty ∧
    (∀ lf : ℚ, 1/2 ≤ lf → loadFactorPenalty lf = 1) ∧
    (∀ lf : ℚ, 1/4 ≤ lf → lf < 1/2 → loadFactorPenalty lf = moderateLoadPenalty) ∧
    (∀ lf : ℚ, lf < 1/4 → loadFactorPenalty lf = moderateLoadPenalty * severeLoadPenalty) ∧
    1 < moderateLoadPenalty ∧ 1 < severeLoadPenalty := by
  refine ⟨fun _ _ _ _ => rfl, ?_, ?_, ?_, ?_, ?_, ?_, ?_, ?_, ?_⟩
  · norm_num [loadFactorPenalty]
  · norm_num [loadFactorPenalty]
  · norm_num [moderateLoadPenalty]
  · norm_num [loadFactorPenalty]
  · intro lf h
    rw [loadFactorPenalty, if_neg (by linarith), if_neg (by linarith)]
    norm_num
  · intro lf h1 h2
    rw [loadFactorPenalty, if_pos h2, if_neg (by linarith)]
    norm_num
  · intro lf h
    rw [loadFactorPenalty, if_pos (by linarith), if_pos h]
  · norm_num [moderateLoadPenalty]
  · norm_num [severeLoadPenalty]

theorem claim_r4_load_factor_boundaries_witness :
    loadFactorPenalty (3/4) = 1 ∧
    loadFactorPenalty (3/10) = moderateLoadPenalty ∧
    loadFactorPenalty (1/10) = moderateLoadPenalty * severeLoadPenalty :=
  ⟨claim_r4_load_factor_boundaries.2.2.2.2.2.1 (3/4) (by norm_num),
   claim_r4_load_factor_boundaries.2.2.2.2.2.2.1 (3/10) (by norm_num) (by norm_num),
   claim_r4_load_factor_boundaries.2.2.2.2.2.2.2.1 (1/10) (by norm_num)⟩

/-! ### C9 -/

theorem paretoSheetRowsFrom_tail_not_recommended (front : List Solution) :
    ∀ idx, 1 ≤ idx → ∀ r ∈ paretoSheetRowsFrom idx front, r.recommended = false := by
  induction front with
  | nil => intro idx _ r hr; simp [paretoSheetRowsFrom] at hr
  | cons s rest ih =>
    intro idx hidx r hr
    simp only [paretoSheetRowsFrom, List.mem_cons] at hr
    rcases hr with rfl | hr
    · simp only [decide_eq_false_iff_not]
      omega
    · exact ih (idx + 1) (by omega) r hr

/-- C9: for a non-empty Pareto front, `exportToExcel`'s `Front Pareto` sheet
marks exactly one row `Recommandée: Oui`, always the row of front index 0
(solution number 1); the sheet depends only on the front, not on the
trade-off weight or on the backend's `recommended_solution`. -/
theorem claim_excel_marks_first_row_recommended :
    ∀ front : List Solution, front ≠ [] →
      ((paretoSheetRows front).countP (fun r => r.recommended) = 1 ∧
       (∀ r ∈ paretoSheetRows front, r.recommended = true → r.solution_no = 1) ∧
       (∀ o1 o2 : Output, o1.pareto_front = o2.pareto_front →
         paretoSheetRows o1.pareto_front = paretoSheetRows o2.pareto_front)) := by
  intro front hfront
  match front with
  | [] => exact absurd rfl hfront
  | s :: rest =>
    have htail := paretoSheetRowsFrom_tail_not_recommended rest 1 le_rfl
    refine ⟨?_, ?_, ?_⟩
    · show List.countP _ (⟨1, _, _, decide (0 = 0)⟩ :: paretoSheetRowsFrom 1 rest) = 1
      rw [List.countP_cons]
      have hz : List.countP (fun r => r.recommended) (paretoSheetRowsFrom 1 rest) = 0 :=
        List.countP_eq_zero.mpr (by intro r hr; simp [htail r hr])
      simp [hz]
    · intro r hr hrec
      rcases List.mem_cons.mp hr with rfl | hr
      · rfl
      · exact absurd hrec (by simp [htail r hr])
    · intro o1 o2 h
      rw [h]

theorem claim_excel_marks_first_row_recommended_witness :
    (paretoSheetRows [⟨5, 6, []⟩]).countP (fun r => r.recommended) = 1 :=
  (claim_excel_marks_first_row_recommended [⟨5, 6, []⟩] (by simp)).1

/-! ### C10 -/

theorem barLe_total (a b : Nat × BarDatum) :
    (decide (a.2.co2 < b.2.co2 ∨ (a.2.co2 = b.2.co2 ∧ a.1 ≤ b.1))) = false →
    (decide (b.2.co2 < a.2.co2 ∨ (b.2.co2 = a.2.co2 ∧ b.1 ≤ a.1))) = true := by
  simp only [decide_eq_false_iff_not, decide_eq_true_eq]
  intro h
  rcases lt_trichotomy a.2.co2 b.2.co2 with hlt | heq | hgt
  · exact absurd (Or.inl hlt) h
  · have hij : ¬ a.1 ≤ b.1 := fun hle => h (Or.inr ⟨heq, hle⟩)
    exact Or.inr ⟨heq.symm, by omega⟩
  · exact Or.inl hgt

theorem barLe_trans (a b c : Nat × BarDatum) :
    (decide (a.2.co2 < b.2.co2 ∨ (a.2.co2 = b.2.co2 ∧ a.1 ≤ b.1))) = true →
    (decide (b.2.co2 < c.2.co2 ∨ (b.2.co2 = c.2.co2 ∧ b.1 ≤ c.1))) = true →
    (decide (a.2.co2 < c.2.co2 ∨ (a.2.co2 = c.2.co2 ∧ a.1 ≤ c.1))) = true := by
  simp only [decide_eq_true_eq]
  intro h1 h2
  rcases h1 with h1 | ⟨h1e, h1i⟩ <;> rcases h2 with h2 | ⟨h2e, h2i⟩
  · exact Or.inl (h1.trans h2)
  · exact Or.inl (h2e ▸ h1)
  · exact Or.inl (h1e ▸ h2)
  · exact Or.inr ⟨h1e.trans h2e, by omega⟩

/-- C10: the bars rendered by `TransportComparisonChart` are exactly the
comparison entries without an `error` field, and they appear in non-decreasing
order of `total_co2_kg`. -/
theorem claim_comparison_chart_sorted_filtered :
    ∀ (pm : Option String) (comparison : List (String × ModeEntry)),
      (∀ b, b ∈ transportChartData pm comparison ↔
        ∃ e ∈ comparison, e.2.error = false ∧ b = mkBar pm e.1 e.2) ∧
      (transportChartData pm comparison).Pairwise (fun x y => x.co2 ≤ y.co2) := by
  intro pm comparison
  constructor
  · intro b
    rw [transportChartData]
    rw [mem_sortBy_enum_snd]
    simp only [List.mem_map, List.mem_filter, Bool.not_eq_true']
    constructor
    · rintro ⟨e, ⟨he, herr⟩, rfl⟩
      exact ⟨e, he, herr, rfl⟩
    · rintro ⟨e, he, herr, rfl⟩
      exact ⟨e, ⟨he, herr⟩, rfl⟩
  · rw [transportChartData]
    have hp := pairwise_sortBy barLe_total barLe_trans
      ((( comparison.filter (fun e => ! e.2.error)).map
        (fun e => mkBar pm e.1 e.2)).enum)
    rw [List.pairwise_map]
    refine hp.imp ?_
    intro a b hab
    rcases decide_eq_true_eq.mp hab with h | ⟨h, _⟩
    · exact le_of_lt h
    · exact le_of_eq h

theorem claim_comparison_chart_sorted_filtered_witness :
    (transportChartData (some "train")
      [("train", ⟨false, 5, some 2⟩), ("truck_large", ⟨false, 9, none⟩),
       ("plane", ⟨true, 1, none⟩)]).Pairwise (fun x y => x.co2 ≤ y.co2) :=
  (claim_comparison_chart_sorted_filtered (some "train")
    [("train", ⟨false, 5, some 2⟩), ("truck_large", ⟨false, 9, none⟩),
     ("plane", ⟨true, 1, none⟩)]).2

/-! ### Inversion of a successful run (shared) -/

theorem run_ok_cases {reqs : List DeliveryRequest} {lookup : Nat → Nat → Option Context}
    {p : Params} {out : Output} (h : run reqs lookup p = .ok out) :
    ∃ rcs, resolveContextsFrom lookup 0 reqs = .ok rcs ∧ out = mkOutput rcs p ∧
      validConfigB p = true ∧ reqs.isEmpty = false ∧
      (reqs.any fun q => decide (q.cargo_tonnes ≤ 0)) = false := by
  unfold run at h
  split at h
  case isFalse => exact absurd h (by simp)
  case isTrue hcfg =>
    split at h
    case isTrue => exact absurd h (by simp)
    case isFalse hemp =>
      split at h
      case isTrue => exact absurd h (by simp)
      case isFalse hcargo =>
        split at h
        case h_1 => exact absurd h (by simp)
        case h_2 rcs hres =>
          split at h
          case isTrue => exact absurd h (by simp)
          case isFalse =>
            refine ⟨rcs, hres, ?_, hcfg, ?_, ?_⟩
            · exact (Except.ok.inj h).symm
            · simpa using hemp
            · simpa using hcargo

/-! ### C5 -/

/-- C5: the engine is a pure function of (requests, context lookup,
parameters, seed); under the shallow embedding the pseudo-random source is an
explicitly seeded generator threaded through every stochastic call (no global
state), so two runs on identical inputs return identical Pareto fronts and
recommended solutions. -/
theorem claim_run_deterministic :
    ∀ (reqs : List DeliveryRequest) (lookup : Nat → Nat → Option Context)
      (p : Params) (out1 out2 : Output),
      run reqs lookup p = .ok out1 → run reqs lookup p = .ok out2 →
      out1 = out2 ∧ out1.pareto_front = out2.pareto_front ∧
        out1.recommended_solution = out2.recommended_solution := by
  intro reqs lookup p out1 out2 h1 h2
  have h := Except.ok.inj (h1.symm.trans h2)
  exact ⟨h, by rw [h], by rw [h]⟩

theorem claim_run_deterministic_witness :
    out0 = out0 ∧ out0.pareto_front = out0.pareto_front ∧
      out0.recommended_solution = out0.recommended_solution :=
  claim_run_deterministic reqs0 lookup0 params0 out0 out0 (by decide) (by decide)

/-! ### C6 -/

/-- C6: an empty request list fails with `InvalidInputError` (given an
otherwise valid configuration); `population_size = 0` or `generations = -1`
fails with `ConfigurationError`; every such failure happens in validation,
before any generation runs, and the error constructor carries no output of any
kind, so an error excludes a success value. -/
theorem claim_validation_errors :
    (∀ (lookup : Nat → Nat → Option Context) (p : Params), validConfigB p = true →
      run [] lookup p = .error .invalidInput) ∧
    (∀ reqs (lookup : Nat → Nat → Option Context) (p : Params),
      p.population_size = 0 → run reqs lookup p = .error .configuration) ∧
    (∀ reqs (lookup : Nat → Nat → Option Context) (p : Params),
      p.generations = -1 → run reqs lookup p = .error .configuration) ∧
    (∀ reqs (lookup : Nat → Nat → Option Context) (p : Params) e out,
      run reqs lookup p = .error e → run reqs lookup p ≠ .ok out) := by
  refine ⟨?_, ?_, ?_, ?_⟩
  · intro lookup p hp
    simp [run, hp, List.isEmpty]
  · intro reqs lookup p hp
    have : validConfigB p = false := by
      simp [validConfigB, hp]
    simp [run, this]
  · intro reqs lookup p hp
    have : validConfigB p = false := by
      simp [validConfigB, hp]
    simp [run, this]
  · intro reqs lookup p e out h1 h2
    rw [h1] at h2
    exact Except.noConfusion h2

theorem claim_validation_errors_witness :
    run [] lookup0 params0 = .error .invalidInput ∧
    run reqs0 lookup0 paramsPop0 = .error .configuration ∧
    run reqs0 lookup0 paramsGenNeg = .error .configuration :=
  ⟨claim_validation_errors.1 lookup0 params0 (by decide),
   claim_validation_errors.2.1 reqs0 lookup0 paramsPop0 rfl,
   claim_validation_errors.2.2.1 reqs0 lookup0 paramsGenNeg rfl⟩

/-! ### C7 -/

theorem recommendFold_keeps_best (sc : ℚ × ℚ → ℚ) (k : Nat) (f : ℚ × ℚ) :
    ∀ (rest : List (ℚ × ℚ)) (idx : Nat),
      (∀ x ∈ rest, ¬(sc x < sc f ∨ (sc x = sc f ∧ x.1 < f.1))) →
      recommendFold sc (k, f) idx rest = k := by
  intro rest
  induction rest with
  | nil => intro idx _; rfl
  | cons x t ih =>
    intro idx hx
    simp only [recommendFold]
    rw [if_neg (hx x (List.mem_cons_self x t))]
    exact ih (idx + 1) (fun y hy => hx y (List.mem_cons_of_mem x hy))

/-- C7: the recommendation selector is total on every non-empty front; when
the maximum equals the minimum for an objective the normalized value of every
member is 0 (the dividing branch is only taken with a non-zero denominator);
in particular on a front whose members all share one fitness pair the selector
deterministically returns the first member. -/
theorem claim_selector_normalization_total :
    (∀ (alpha : ℚ) (fits : List (ℚ × ℚ)), fits ≠ [] →
      (recommendIdx alpha fits).isSome = true) ∧
    (∀ mn v : ℚ, normalizeBy mn mn v = 0) ∧
    (∀ mn mx : ℚ, mx ≠ mn → mx - mn ≠ 0) ∧
    (∀ (alpha : ℚ) (f : ℚ × ℚ) (n : Nat),
      recommendIdx alpha (List.replicate (n + 1) f) = some 0) := by
  refine ⟨?_, ?_, ?_, ?_⟩
  · intro alpha fits h
    match fits with
    | [] => exact absurd rfl h
    | f :: rest => rfl
  · intro mn v
    simp [normalizeBy]
  · intro mn mx h
    exact sub_ne_zero.mpr h
  · intro alpha f n
    rw [List.replicate_succ, recommendIdx]
    congr 1
    refine recommendFold_keeps_best _ 0 f _ 1 ?_
    intro x hx
    have hxf : x = f := List.eq_of_mem_replicate hx
    subst hxf
    simp

theorem claim_selector_normalization_total_witness :
    (recommendIdx (1/2) [(1, 2), (3, 1)]).isSome = true ∧ (1 : ℚ) - 0 ≠ 0 :=
  ⟨claim_selector_normalization_total.1 (1/2) [(1, 2), (3, 1)] (by simp),
   claim_selector_normalization_total.2.2.1 0 1 (by norm_num)⟩

/-! ### C3 -/

/-- C3 counterexample: feeding the chart consumer a record carrying the
generation index under the field name `generation` — the shape the claim
asserts the logbook entries have — the consumer (`EvolutionChart`, which reads
`record.gen`) fails to read it: its generation output is `none`, not 7. -/
theorem claim_logbook_generation_field_cex :
    (evolutionPoint specStyleRecord).generation = none ∧
      (evolutionPoint specStyleRecord).generation ≠ some 7 := by
  constructor
  · rfl
  · intro h
    exact Option.noConfusion h

theorem stepGen_logbook (rcs : List RC) (p : Params) (g : Nat) (st : EngineState) :
    ∃ P, (stepGen rcs p g st).logbook = mkLogEntry (g + 1) P :: st.logbook :=
  ⟨_, rfl⟩

theorem runState_logbook_shape (rcs : List RC) (p : Params) :
    ∀ g, ∀ en ∈ (runState rcs p g).logbook, ∃ k P, en = mkLogEntry (k + 1) P := by
  intro g
  induction g with
  | zero => intro en hen; simp [runState, initState] at hen
  | succ g ih =>
    intro en hen
    rcases stepGen_logbook rcs p g (runState rcs p g) with ⟨P, hP⟩
    rw [runState, hP] at hen
    rcases List.mem_cons.mp hen with rfl | h
    · exact ⟨g, P, rfl⟩
    · exact ih en h

/-- C3 amended: each logbook entry recorded by the generational loop holds the
generation index and the population minima of cost and co2, but the index
field is exposed under the name `gen` (not `generation`): the consumer
`EvolutionChart` reads the generation index as `record.gen` and the minima as
`record.min_cost` and `record.min_co2`. -/
theorem claim_logbook_gen_field_amended :
    (∀ e : LogEntry, evolutionPoint (logRecordOf e) =
      ⟨some (e.gen : ℚ), some (e.min_cost / 1000000), some (e.min_co2 / 1000)⟩) ∧
    (∀ reqs (lookup : Nat → Nat → Option Context) (p : Params) (out : Output),
      run reqs lookup p = .ok out →
      ∀ en ∈ out.logbook, ∃ g P, en = mkLogEntry (g + 1) P ∧
        en.gen = g + 1 ∧ en.min_cost = minCost P ∧ en.min_co2 = minCo2 P) := by
  constructor
  · intro e
    rfl
  · intro reqs lookup p out h en hen
    rcases run_ok_cases h with ⟨rcs, _, rfl, _⟩
    have hmem : en ∈ (runState rcs p p.generations.toNat).logbook :=
      List.mem_reverse.mp hen
    rcases runState_logbook_shape rcs p p.generations.toNat en hmem with ⟨k, P, rfl⟩
    exact ⟨k, P, rfl, rfl, rfl, rfl⟩

theorem claim_logbook_gen_field_amended_witness :
    ∃ g P, ent0 = mkLogEntry (g + 1) P ∧ ent0.gen = g + 1 ∧
      ent0.min_cost = minCost P ∧ ent0.min_co2 = minCo2 P :=
  claim_logbook_gen_field_amended.2 reqs0 lookup0 params1 out1 (by decide)
    ent0 (by decide)

/-! ### C2 -/

theorem firstFrontBy_mutual {α : Type} (fit : α → ℚ × ℚ) (P : List α) {a b : α}
    (ha : a ∈ firstFrontBy fit P) (hb : b ∈ firstFrontBy fit P) :
    ¬ Dominates (fit a) (fit b) := by
  rcases List.mem_filter.mp ha with ⟨haP, _⟩
  rcases List.mem_filter.mp hb with ⟨_, hbU⟩
  rw [undominatedIn] at hbU
  have h := List.all_eq_true.mp hbU a haP
  simpa using h

theorem mkOutput_front (rcs : List RC) (p : Params) :
    (mkOutput rcs p).pareto_front =
      (firstFront (runState rcs p p.generations.toNat).pop).map toSolution := rfl

theorem toSolution_fit (a : Individual) :
    ((toSolution a).total_cost_dzd, (toSolution a).total_co2_kg) = a.fitness := rfl

/-- C2: in the Pareto front returned by a completed run, no member dominates
another: for every pair A, B of front members, neither `cost(A) ≤ cost(B) ∧
co2(A) ≤ co2(B)` with a strict inequality, nor the converse. -/
theorem claim_pareto_front_mutually_nondominated :
    ∀ reqs (lookup : Nat → Nat → Option Context) (p : Params) (out : Output),
      run reqs lookup p = .ok out →
      ∀ A ∈ out.pareto_front, ∀ B ∈ out.pareto_front,
        ¬ Dominates (A.total_cost_dzd, A.total_co2_kg) (B.total_cost_dzd, B.total_co2_kg) ∧
        ¬ Dominates (B.total_cost_dzd, B.total_co2_kg) (A.total_cost_dzd, A.total_co2_kg) := by
  intro reqs lookup p out h A hA B hB
  rcases run_ok_cases h with ⟨rcs, _, rfl, _⟩
  rw [mkOutput_front] at hA hB
  rcases List.mem_map.mp hA with ⟨a, haF, rfl⟩
  rcases List.mem_map.mp hB with ⟨b, hbF, rfl⟩
  rw [toSolution_fit a, toSolution_fit b]
  exact ⟨@firstFrontBy_mutual Individual (fun i => i.fitness) _ a b haF hbF,
    @firstFrontBy_mutual Individual (fun i => i.fitness) _ b a hbF haF⟩

theorem claim_pareto_front_mutually_nondominated_witness :
    ¬ Dominates (sol0.total_cost_dzd, sol0.total_co2_kg)
        (sol0.total_cost_dzd, sol0.total_co2_kg) ∧
    ¬ Dominates (sol0.total_cost_dzd, sol0.total_co2_kg)
        (sol0.total_cost_dzd, sol0.total_co2_kg) :=
  claim_pareto_front_mutually_nondominated reqs0 lookup0 params0 out0 (by decide)
    sol0 (by decide) sol0 (by decide)

/-! ### C8: fitness cache and non-negativity machinery -/

theorem mem_paretoFrontsBy {α : Type} (fit : α → ℚ × ℚ) :
    ∀ (fuel : Nat) (P F : List α), F ∈ paretoFrontsBy fit fuel P →
      ∀ x ∈ F, x ∈ P := by
  intro fuel
  induction fuel with
  | zero => intro P F hF; simp [paretoFrontsBy] at hF
  | succ n ih =>
    intro P F hF x hx
    match P with
    | [] => simp [paretoFrontsBy] at hF
    | a :: l =>
      simp only [paretoFrontsBy, List.mem_cons] at hF
      rcases hF with rfl | hF
      · exact List.mem_of_mem_filter hx
      · exact List.mem_of_mem_filter (ih _ F hF x hx)

theorem mem_sortByCrowdDesc (F : List Individual) (x : Individual)
    (hx : x ∈ sortByCrowdDesc F) : x ∈ F := by
  rw [sortByCrowdDesc] at hx
  exact (mem_sortBy_enum_snd _ x F).mp hx

theorem mem_fillNext :
    ∀ (fronts : List (List Individual)) (n : Nat) (x : Individual),
      x ∈ fillNext n fronts → ∃ F ∈ fronts, x ∈ F := by
  intro fronts
  induction fronts with
  | nil => intro n x hx; simp [fillNext] at hx
  | cons F rest ih =>
    intro n x hx
    rw [fillNext] at hx
    split at hx
    · rcases List.mem_append.mp hx with h | h
      · exact ⟨F, List.mem_cons_self F rest, h⟩
      · rcases ih _ x h with ⟨G, hG, hxG⟩
        exact ⟨G, List.mem_cons_of_mem F hG, hxG⟩
    · exact ⟨F, List.mem_cons_self F rest,
        mem_sortByCrowdDesc F x (List.take_subset _ _ hx)⟩

theorem offspringPair_shape (rcs : List RC) (strat : CrossoverStrategy)
    (cx mu : ℚ) (P : List Individual) (fronts : List (List (Nat × Individual)))
    (r : RNG) :
    ∃ g1 g2, (offspringPair rcs strat cx mu P fronts r).1 =
      (evalInd rcs g1, evalInd rcs g2) :=
  ⟨_, _, rfl⟩

theorem makeOffspring_shape (rcs : List RC) (strat : CrossoverStrategy)
    (cx mu : ℚ) (P : List Individual) (fronts : List (List (Nat × Individual))) :
    ∀ (k : Nat) (r : RNG), ∀ x ∈ (makeOffspring rcs strat cx mu P fronts k r).1,
      ∃ g, x = evalInd rcs g := by
  intro k
  induction k with
  | zero => intro r x hx; simp [makeOffspring] at hx
  | succ k ih =>
    intro r x hx
    simp only [makeOffspring, List.mem_cons] at hx
    rcases offspringPair_shape rcs strat cx mu P fronts r with ⟨g1, g2, hpr⟩
    rcases hx with rfl | rfl | hx
    · exact ⟨g1, by rw [hpr]⟩
    · exact ⟨g2, by rw [hpr]⟩
    · exact ih _ x hx

theorem initPop_shape (rcs : List RC) :
    ∀ (n : Nat) (r : RNG), ∀ x ∈ (initPop rcs n r).1, ∃ g, x = evalInd rcs g := by
  intro n
  induction n with
  | zero => intro r x hx; simp [initPop] at hx
  | succ n ih =>
    intro r x hx
    simp only [initPop, List.mem_cons] at hx
    rcases hx with rfl | hx
    · exact ⟨_, rfl⟩
    · exact ih _ x hx

theorem stepGen_WF (rcs : List RC) (p : Params) (g : Nat) (st : EngineState)
    (h : ∀ x ∈ st.pop, WFInd rcs x) :
    ∀ x ∈ (stepGen rcs p g st).pop, WFInd rcs x := by
  intro x hx
  have hx2 : x ∈ fillNext p.population_size.toNat
      (paretoFrontsBy (fun i : Individual => i.fitness) (mergedOf rcs p st).length
        (mergedOf rcs p st)) := hx
  rcases mem_fillNext _ _ x hx2 with ⟨F, hF, hxF⟩
  have hxm : x ∈ mergedOf rcs p st :=
    mem_paretoFrontsBy (fun i : Individual => i.fitness) _ _ F hF x hxF
  rcases List.mem_append.mp hxm with hxp | hxo
  · exact h x hxp
  · rcases makeOffspring_shape rcs p.strategy p.crossover_rate p.mutation_rate
      st.pop (selectionData st.pop) _ st.rng x (List.take_subset _ _ hxo) with ⟨gs, rfl⟩
    rfl

theorem runState_WF (rcs : List RC) (p : Params) :
    ∀ g, ∀ x ∈ (runState rcs p g).pop, WFInd rcs x := by
  intro g
  induction g with
  | zero =>
    intro x hx
    rcases initPop_shape rcs _ _ x hx with ⟨gs, rfl⟩
    rfl
  | succ g ih => exact stepGen_WF rcs p g (runState rcs p g) ih

theorem loadFactorPenalty_pos (lf : ℚ) : 0 < loadFactorPenalty lf := by
  rw [loadFactorPenalty]
  split <;> split <;> norm_num [moderateLoadPenalty, severeLoadPenalty]

theorem zoneMultiplier_pos (z : Zone) : 0 < zoneMultiplier z := by
  cases z <;> norm_num [zoneMultiplier]

theorem cargoMultiplier_pos (c : CargoType) : 0 < cargoMultiplier c := by
  cases c <;> norm_num [cargoMultiplier]

theorem baseEmission_nonneg (m : TransportMode) : 0 ≤ baseEmission m := by
  cases m <;> norm_num [baseEmission]

theorem baseCost_nonneg (m : TransportMode) : 0 ≤ baseCost m := by
  cases m <;> norm_num [baseCost]

theorem r2_nonneg (ctx : Context) (f : ℚ) (h : 0 ≤ f) : 0 ≤ r2 ctx f :=
  mul_nonneg h (zoneMultiplier_pos _).le

theorem r3_nonneg (ctx : Context) (s f : ℚ) (hs : 0 ≤ s) (h : 0 ≤ f) :
    0 ≤ r3 ctx s f := by
  rw [r3]
  split
  · exact add_nonneg h hs
  · exact h

theorem r4_nonneg (req : DeliveryRequest) (ctx : Context) (mode : TransportMode)
    (f : ℚ) (h : 0 ≤ f) : 0 ≤ r4 req ctx mode f :=
  mul_nonneg h (loadFactorPenalty_pos _).le

theorem r5_nonneg (req : DeliveryRequest) (f : ℚ) (h : 0 ≤ f) : 0 ≤ r5 req f :=
  mul_nonneg h (cargoMultiplier_pos _).le

theorem r6_nonneg (mode : TransportMode) (f : ℚ) (h : 0 ≤ f) : 0 ≤ r6 mode f := by
  rw [r6]
  split
  · exact add_nonneg h h
  · exact h

theorem r7_nonneg (ctx : Context) (mode : TransportMode) (f : ℚ) (h : 0 ≤ f) :
    0 ≤ r7 ctx mode f := by
  rw [r7]
  split
  · exact mul_nonneg h (by norm_num [longHaulRailBonus])
  · exact h

theorem r8_nonneg (ctx : Context) (f : ℚ) (h : 0 ≤ f) : 0 ≤ r8 ctx f := by
  rw [r8]
  split
  · exact mul_nonneg h (by norm_num [extremeSouthPenalty])
  · exact h

theorem co2Factor_nonneg (mode : TransportMode) (req : DeliveryRequest)
    (ctx : Context) : 0 ≤ co2Factor mode req ctx :=
  r8_nonneg _ _ (r7_nonneg _ _ _ (r6_nonneg _ _ (r5_nonneg _ _ (r4_nonneg _ _ _ _
    (r3_nonneg _ _ _ (by norm_num [crossingSurchargeEmission])
      (r2_nonneg _ _ (baseEmission_nonneg _)))))))

theorem costFactor_nonneg (mode : TransportMode) (req : DeliveryRequest)
    (ctx : Context) : 0 ≤ costFactor mode req ctx :=
  r8_nonneg _ _ (r7_nonneg _ _ _ (r6_nonneg _ _ (r5_nonneg _ _ (r4_nonneg _ _ _ _
    (r3_nonneg _ _ _ (by norm_num [crossingSurchargeCost])
      (r2_nonneg _ _ (baseCost_nonneg _)))))))

theorem evaluate_nonneg (mode : TransportMode) (req : DeliveryRequest)
    (ctx : Context) (h1 : 0 ≤ req.cargo_tonnes) (h2 : 0 ≤ ctx.distance_km) :
    0 ≤ (evaluate mode req ctx).1 ∧ 0 ≤ (evaluate mode req ctx).2 := by
  constructor
  · show 0 ≤ costFactor mode req ctx * ctx.distance_km * req.cargo_tonnes +
      handlingOverheadDZD
    exact add_nonneg (mul_nonneg (mul_nonneg (costFactor_nonneg _ _ _) h2) h1)
      (by norm_num [handlingOverheadDZD])
  · show 0 ≤ co2Factor mode req ctx * ctx.distance_km * req.cargo_tonnes
    exact mul_nonneg (mul_nonneg (co2Factor_nonneg _ _ _) h2) h1

theorem sumFit_nonneg :
    ∀ (rcs : List RC) (genes : List TransportMode),
      (∀ rc ∈ rcs, 0 ≤ rc.1.cargo_tonnes ∧ 0 ≤ rc.2.distance_km) →
      0 ≤ (sumFit rcs genes).1 ∧ 0 ≤ (sumFit rcs genes).2 := by
  intro rcs
  induction rcs with
  | nil => intro genes h; simp [sumFit]
  | cons rc rs ih =>
    intro genes h
    cases genes with
    | nil => simp [sumFit]
    | cons g gs =>
      have hrc := h rc (List.mem_cons_self rc rs)
      have hih := ih gs (fun x hx => h x (List.mem_cons_of_mem rc hx))
      have he := evaluate_nonneg g rc.1 rc.2 hrc.1 hrc.2
      constructor
      · show 0 ≤ (evaluate g rc.1 rc.2).1 + (sumFit rs gs).1
        exact add_nonneg he.1 hih.1
      · show 0 ≤ (evaluate g rc.1 rc.2).2 + (sumFit rs gs).2
        exact add_nonneg he.2 hih.2

theorem resolveContexts_facts (lookup : Nat → Nat → Option Context) :
    ∀ (reqs : List DeliveryRequest) (i : Nat) (rcs : List RC),
      resolveContextsFrom lookup i reqs = .ok rcs →
      ∀ rc ∈ rcs, rc.1 ∈ reqs ∧ lookup rc.1.origin rc.1.destination = some rc.2 := by
  intro reqs
  induction reqs with
  | nil =>
    intro i rcs h rc hrc
    simp only [resolveContextsFrom] at h
    cases h
    simp at hrc
  | cons q rest ih =>
    intro i rcs h rc hrc
    rw [resolveContextsFrom] at h
    split at h
    case h_1 => exact Except.noConfusion h
    case h_2 c hc =>
      split at h
      case h_1 => exact Except.noConfusion h
      case h_2 rs hrs =>
        cases h
        rcases List.mem_cons.mp hrc with rfl | hrc
        · exact ⟨List.mem_cons_self q rest, hc⟩
        · rcases ih (i + 1) rs hrs rc hrc with ⟨h1, h2⟩
          exact ⟨List.mem_cons_of_mem q h1, h2⟩

/-- C8: at every point in the search every individual's cached fitness pair
equals the sum over its gene sequence of the per-request `DecisionCostModel`
outputs; such sums are non-negative whenever cargo tonnages and distances are
non-negative; consequently every cost/co2 pair reported in the final front of
a successful run is such a sum and both components are ≥ 0.  (In the
embedding all quantities are rationals, hence finite by construction.) -/
theorem claim_fitness_invariant :
    (∀ (rcs : List RC) (p : Params) (g : Nat), ∀ ind ∈ (runState rcs p g).pop,
      ind.fitness = sumFit rcs ind.genes) ∧
    (∀ (rcs : List RC) (genes : List TransportMode),
      (∀ rc ∈ rcs, 0 ≤ rc.1.cargo_tonnes ∧ 0 ≤ rc.2.distance_km) →
      0 ≤ (sumFit rcs genes).1 ∧ 0 ≤ (sumFit rcs genes).2) ∧
    (∀ reqs (lookup : Nat → Nat → Option Context) (p : Params) (out : Output),
      run reqs lookup p = .ok out →
      (∀ o d c, lookup o d = some c → 0 ≤ c.distance_km) →
      ∀ s ∈ out.pareto_front, ∃ rcs genes,
        resolveContextsFrom lookup 0 reqs = .ok rcs ∧
        s.total_cost_dzd = (sumFit rcs genes).1 ∧
        s.total_co2_kg = (sumFit rcs genes).2 ∧
        0 ≤ s.total_cost_dzd ∧ 0 ≤ s.total_co2_kg) := by
  refine ⟨fun rcs p g => runState_WF rcs p g, sumFit_nonneg, ?_⟩
  intro reqs lookup p out h hdist s hs
  rcases run_ok_cases h with ⟨rcs, hres, rfl, _, _, hcargo⟩
  rcases List.mem_map.mp hs with ⟨a, haF, rfl⟩
  have hapop : a ∈ (runState rcs p p.generations.toNat).pop :=
    List.mem_of_mem_filter haF
  have hfit : a.fitness = sumFit rcs a.genes :=
    runState_WF rcs p p.generations.toNat a hapop
  have hbounds : ∀ rc ∈ rcs, 0 ≤ rc.1.cargo_tonnes ∧ 0 ≤ rc.2.distance_km := by
    intro rc hrc
    rcases resolveContexts_facts lookup reqs 0 rcs hres rc hrc with ⟨hreq, hlk⟩
    constructor
    · by_contra hneg
      have hle : rc.1.cargo_tonnes ≤ 0 := le_of_not_le hneg
      have : reqs.any (fun q => decide (q.cargo_tonnes ≤ 0)) = true :=
        List.any_eq_true.mpr ⟨rc.1, hreq, by simpa using hle⟩
      rw [this] at hcargo
      exact Bool.noConfusion hcargo
    · exact hdist _ _ _ hlk
  have hnn := sumFit_nonneg rcs a.genes hbounds
  refine ⟨rcs, a.genes, hres, ?_, ?_, ?_, ?_⟩
  · show a.fitness.1 = _
    rw [hfit]
  · show a.fitness.2 = _
    rw [hfit]
  · show 0 ≤ a.fitness.1
    rw [hfit]; exact hnn.1
  · show 0 ≤ a.fitness.2
    rw [hfit]; exact hnn.2

theorem claim_fitness_invariant_witness :
    ∃ rcs genes,
      resolveContextsFrom lookup0 0 reqs0 = .ok rcs ∧
      sol0.total_cost_dzd = (sumFit rcs genes).1 ∧
      sol0.total_co2_kg = (sumFit rcs genes).2 ∧
      0 ≤ sol0.total_cost_dzd ∧ 0 ≤ sol0.total_co2_kg :=
  claim_fitness_invariant.2.2 reqs0 lookup0 params0 out0 (by decide)
    (by
      intro o d c hc
      simp only [lookup0, Option.some.injEq] at hc
      rw [← hc]
      norm_num [ctx0])
    sol0 (by decide)

end MainTheorems

end EcoLogistics
